import Mathlib

/-!
Verification development for the fritzbox-tools repository
(`src/fritz_log_agent/client.py` and `src/fritz_log_agent/cli.py`).

The Python modules are shallowly embedded below: pure helpers become Lean
functions, the stateful poller loop becomes explicit state passing, and
fallible code returns `Except`/`Option`.  Machine-level effects (HTTP
requests, file writes, sleeping) are abstracted into explicit inputs and
action traces.
-/

namespace FritzLog

/-- Model of Python `datetime.datetime` restricted to second precision,
as produced by `_parse_timestamp` and consumed by the poller and the
serializers.  Python compares datetimes lexicographically by field. -/
structure DateTime where
  year : Nat
  month : Nat
  day : Nat
  hour : Nat
  minute : Nat
  second : Nat
  deriving DecidableEq, Repr

/-- Python `datetime` strict order: lexicographic on
(year, month, day, hour, minute, second). -/
def DateTime.Lt (a b : DateTime) : Prop :=
  a.year < b.year ∨ (a.year = b.year ∧
    (a.month < b.month ∨ (a.month = b.month ∧
      (a.day < b.day ∨ (a.day = b.day ∧
        (a.hour < b.hour ∨ (a.hour = b.hour ∧
          (a.minute < b.minute ∨ (a.minute = b.minute ∧
            a.second < b.second)))))))))

instance (a b : DateTime) : Decidable (DateTime.Lt a b) := by
  unfold DateTime.Lt; infer_instance

theorem DateTime.lt_irrefl (a : DateTime) : ¬ DateTime.Lt a a := by
  unfold DateTime.Lt; omega

theorem DateTime.lt_asymm {a b : DateTime} (h : DateTime.Lt a b) :
    ¬ DateTime.Lt b a := by
  unfold DateTime.Lt at *; omega

theorem DateTime.lt_total (a b : DateTime) :
    DateTime.Lt a b ∨ a = b ∨ DateTime.Lt b a := by
  rcases a with ⟨y1, mo1, d1, h1, mi1, s1⟩
  rcases b with ⟨y2, mo2, d2, h2, mi2, s2⟩
  unfold DateTime.Lt
  simp only [DateTime.mk.injEq]
  omega

theorem DateTime.not_lt_trans {a b c : DateTime}
    (hab : ¬ DateTime.Lt b a) (hbc : ¬ DateTime.Lt c b) :
    ¬ DateTime.Lt c a := by
  unfold DateTime.Lt at *; omega

/-- `LogEntry` from `client.py`: immutable record of one router log line. -/
structure LogEntry where
  timestamp : DateTime
  group : String
  entry_id : String
  message : String
  deriving DecidableEq, Repr

/-- `_entry_signature` from `cli.py`:
`f"{entry.group}|{entry.entry_id}|{entry.message}"`. -/
def entrySignature (e : LogEntry) : String :=
  e.group ++ "|" ++ e.entry_id ++ "|" ++ e.message

/-- The poller's retained memory in `_run_agent` (`cli.py`):
`last_timestamp` and the set `last_signatures`. -/
structure PollState where
  last_timestamp : DateTime
  last_signatures : Finset String
  deriving DecidableEq

/-- One iteration of the loop body in `_run_agent` (`cli.py` lines
205-216) for a single sorted entry: returns the updated state and
whether the entry is appended to `new_entries` (emitted). -/
def pollStep (s : PollState) (e : LogEntry) : PollState × Bool :=
  if DateTime.Lt s.last_timestamp e.timestamp then
    ({ last_timestamp := e.timestamp,
       last_signatures := {entrySignature e} }, true)
  else if e.timestamp = s.last_timestamp then
    if entrySignature e ∈ s.last_signatures then (s, false)
    else ({ s with last_signatures := insert (entrySignature e) s.last_signatures }, true)
  else (s, false)

/-- The `for entry in entries_sorted` loop of `_run_agent`, collecting
`new_entries` in order. -/
def pollLoop : PollState → List LogEntry → PollState × List LogEntry
  | s, [] => (s, [])
  | s, e :: rest =>
    let r := pollStep s e
    let rec' := pollLoop r.1 rest
    (rec'.1, if r.2 then e :: rec'.2 else rec'.2)

/-- The comparison used by `sorted(entries, key=lambda entry: entry.timestamp)`:
a non-strict "key not greater" relation on entries. -/
def entryLe (a b : LogEntry) : Prop := ¬ DateTime.Lt b.timestamp a.timestamp

instance : DecidableRel entryLe := fun a b => by
  unfold entryLe; infer_instance

instance : IsTotal LogEntry entryLe :=
  ⟨fun a b => by
    unfold entryLe
    rcases DateTime.lt_total a.timestamp b.timestamp with h | h | h
    · exact Or.inl (DateTime.lt_asymm h)
    · exact Or.inl (h ▸ DateTime.lt_irrefl _)
    · exact Or.inr (DateTime.lt_asymm h)⟩

instance : IsTrans LogEntry entryLe :=
  ⟨fun a b c hab hbc => by
    unfold entryLe at *
    exact DateTime.not_lt_trans hab hbc⟩

/-- `sorted(entries, key=lambda entry: entry.timestamp)` from `cli.py`
(a stable ascending sort by timestamp). -/
def sortEntries (entries : List LogEntry) : List LogEntry :=
  List.insertionSort entryLe entries

/-- Processing of one successfully fetched batch by `_run_agent`
(`cli.py` lines 205-216): sort ascending by timestamp, then run the
per-entry state machine, collecting the emitted `new_entries`. -/
def processBatch (s : PollState) (entries : List LogEntry) :
    PollState × List LogEntry :=
  pollLoop s (sortEntries entries)

/-! ### Timestamp serialization (`strftime("%Y-%m-%dT%H:%M:%S")`) and its
inverse (`strptime` with the same format). -/

/-- Decimal digit character for `n % 10`. -/
def digitChar (n : Nat) : Char := Char.ofNat (48 + n % 10)

/-- Two-digit zero-padded decimal rendering (`%02d`, as produced by
`strftime` for `%m`, `%d`, `%H`, `%M`, `%S` on in-range values). -/
def pad2 (n : Nat) : List Char := [digitChar (n / 10), digitChar n]

/-- Four-digit decimal rendering (`%Y` for the years 1000-9999 that this
program's datetimes live in). -/
def pad4 (n : Nat) : List Char :=
  [digitChar (n / 1000), digitChar (n / 100), digitChar (n / 10), digitChar n]

/-- `timestamp.strftime("%Y-%m-%dT%H:%M:%S")`, used by `LogEntry.to_json`
and `_save_state`. -/
def formatIso (d : DateTime) : String :=
  String.mk (pad4 d.year ++ '-' :: pad2 d.month ++ '-' :: pad2 d.day ++
    'T' :: pad2 d.hour ++ ':' :: pad2 d.minute ++ ':' :: pad2 d.second)

/-- Decode one decimal digit character. -/
def charToDigit (c : Char) : Option Nat :=
  if 48 ≤ c.toNat ∧ c.toNat ≤ 57 then some (c.toNat - 48) else none

/-- Decode a run of decimal digit characters, most significant first. -/
def digitsToNat : List Char → Option Nat
  | [] => some 0
  | c :: cs =>
    match charToDigit c, digitsToNat cs with
    | some d, some rest => some (d * 10 ^ cs.length + rest)
    | _, _ => none

/-- `datetime.strptime(s, "%Y-%m-%dT%H:%M:%S")` as used by `_run_agent`
on the persisted `last_timestamp` (and by the round-trip reading of
`LogEntry.to_json`): four-digit year, two-digit remaining fields, fixed
separators. -/
def parseIsoTimestamp (s : String) : Option DateTime :=
  match s.data with
  | [y1, y2, y3, y4, c1, m1, m2, c2, d1, d2, c3, h1, h2, c4, n1, n2, c5, s1, s2] =>
    if c1 = '-' ∧ c2 = '-' ∧ c3 = 'T' ∧ c4 = ':' ∧ c5 = ':' then do
      let y ← digitsToNat [y1, y2, y3, y4]
      let mo ← digitsToNat [m1, m2]
      let da ← digitsToNat [d1, d2]
      let h ← digitsToNat [h1, h2]
      let mi ← digitsToNat [n1, n2]
      let se ← digitsToNat [s1, s2]
      if 1 ≤ mo ∧ mo ≤ 12 ∧ 1 ≤ da ∧ da ≤ 31 ∧ h ≤ 23 ∧ mi ≤ 59 ∧ se ≤ 59 then
        some ⟨y, mo, da, h, mi, se⟩
      else none
    else none
  | _ => none

/-- The dictionary returned by `LogEntry.to_json` (`client.py` lines
27-33): string timestamp plus the three verbatim string fields. -/
structure EntryJson where
  timestamp : String
  group : String
  id : String
  msg : String
  deriving DecidableEq, Repr

/-- `LogEntry.to_json` from `client.py`. -/
def LogEntry.toJson (e : LogEntry) : EntryJson :=
  { timestamp := formatIso e.timestamp,
    group := e.group,
    id := e.entry_id,
    msg := e.message }

/-- Reading back the four fields of a `to_json` dictionary, parsing the
`"timestamp"` value as `YYYY-MM-DDTHH:MM:SS`. -/
def readJsonEntry (j : EntryJson) : Option (DateTime × String × String × String) :=
  (parseIsoTimestamp j.timestamp).map (fun t => (t, j.group, j.id, j.msg))

/-! ### Password sanitization and challenge response (`client.py`). -/

/-- `_sanitize_password` from `client.py`:
`"".join(ch if ord(ch) <= 255 else "." for ch in password)`. -/
def sanitizePassword (password : String) : String :=
  String.mk (password.data.map fun ch => if ch.toNat ≤ 255 then ch else '.')

/-! ### `str.encode("utf-16le")` and `hashlib.md5(...).hexdigest()`,
the primitives used by `FritzClient.login` (`client.py` lines 101-105).
Bytes are modelled as `Nat` values below 256 and 32-bit words as `Nat`
values reduced modulo `2 ^ 32`. -/

/-- Reduce to a 32-bit word. -/
def mask32 (x : Nat) : Nat := x % 4294967296

/-- 32-bit bitwise complement. -/
def not32 (x : Nat) : Nat := Nat.xor (mask32 x) 4294967295

/-- 32-bit left rotation. -/
def rotl32 (x n : Nat) : Nat :=
  mask32 ((mask32 x) <<< n ||| (mask32 x) >>> (32 - n))

/-- Little-endian bytes of `x`, `k` bytes wide. -/
def toBytesLE : Nat → Nat → List Nat
  | 0, _ => []
  | k + 1, x => x % 256 :: toBytesLE k (x / 256)

/-- Group a little-endian byte list into 32-bit words. -/
def bytesToWordsLE : List Nat → List Nat
  | b0 :: b1 :: b2 :: b3 :: rest =>
    (b0 + 256 * b1 + 65536 * b2 + 16777216 * b3) :: bytesToWordsLE rest
  | _ => []

/-- The MD5 sine-derived constant table (RFC 1321 `T[1..64]`). -/
def md5K : List Nat :=
  [0xd76aa478, 0xe8c7b756, 0x242070db, 0xc1bdceee,
   0xf57c0faf, 0x4787c62a, 0xa8304613, 0xfd469501,
   0x698098d8, 0x8b44f7af, 0xffff5bb1, 0x895cd7be,
   0x6b901122, 0xfd987193, 0xa679438e, 0x49b40821,
   0xf61e2562, 0xc040b340, 0x265e5a51, 0xe9b6c7aa,
   0xd62f105d, 0x02441453, 0xd8a1e681, 0xe7d3fbc8,
   0x21e1cde6, 0xc33707d6, 0xf4d50d87, 0x455a14ed,
   0xa9e3e905, 0xfcefa3f8, 0x676f02d9, 0x8d2a4c8a,
   0xfffa3942, 0x8771f681, 0x6d9d6122, 0xfde5380c,
   0xa4beea44, 0x4bdecfa9, 0xf6bb4b60, 0xbebfbc70,
   0x289b7ec6, 0xeaa127fa, 0xd4ef3085, 0x04881d05,
   0xd9d4d039, 0xe6db99e5, 0x1fa27cf8, 0xc4ac5665,
   0xf4292244, 0x432aff97, 0xab9423a7, 0xfc93a039,
   0x655b59c3, 0x8f0ccc92, 0xffeff47d, 0x85845dd1,
   0x6fa87e4f, 0xfe2ce6e0, 0xa3014314, 0x4e0811a1,
   0xf7537e82, 0xbd3af235, 0x2ad7d2bb, 0xeb86d391]

/-- The MD5 per-round left-rotation amounts. -/
def md5S : List Nat :=
  [7, 12, 17, 22, 7, 12, 17, 22, 7, 12, 17, 22, 7, 12, 17, 22,
   5, 9, 14, 20, 5, 9, 14, 20, 5, 9, 14, 20, 5, 9, 14, 20,
   4, 11, 16, 23, 4, 11, 16, 23, 4, 11, 16, 23, 4, 11, 16, 23,
   6, 10, 15, 21, 6, 10, 15, 21, 6, 10, 15, 21, 6, 10, 15, 21]

/-- One 64-round MD5 compression of a 16-word block `m` into the running
state, including the final feed-forward addition. -/
def md5ProcessBlock (st : Nat × Nat × Nat × Nat) (m : List Nat) :
    Nat × Nat × Nat × Nat :=
  let fin := (List.range 64).foldl
    (fun (s : Nat × Nat × Nat × Nat) i =>
      let a := s.1
      let b := s.2.1
      let c := s.2.2.1
      let d := s.2.2.2
      let f :=
        if i < 16 then (b &&& c) ||| ((not32 b) &&& d)
        else if i < 32 then (d &&& b) ||| ((not32 d) &&& c)
        else if i < 48 then Nat.xor b (Nat.xor c d)
        else Nat.xor c (b ||| not32 d)
      let g :=
        if i < 16 then i
        else if i < 32 then (5 * i + 1) % 16
        else if i < 48 then (3 * i + 5) % 16
        else (7 * i) % 16
      let tmp := mask32 (f + a + md5K.getD i 0 + m.getD g 0)
      (d, mask32 (b + rotl32 tmp (md5S.getD i 0)), b, c))
    st
  (mask32 (st.1 + fin.1), mask32 (st.2.1 + fin.2.1),
   mask32 (st.2.2.1 + fin.2.2.1), mask32 (st.2.2.2 + fin.2.2.2))

/-- MD5 padding: `0x80`, zeros to 56 mod 64, then the 64-bit
little-endian bit length. -/
def md5Pad (msg : List Nat) : List Nat :=
  msg ++ 0x80 :: List.replicate ((119 - msg.length % 64) % 64) 0 ++
    toBytesLE 8 ((8 * msg.length) % 18446744073709551616)

/-- Split a byte list into 64-byte blocks (`fuel` bounds the recursion
depth and is instantiated with the list length, which always suffices
since every step drops at least one byte off a non-empty list). -/
def md5BlocksGo : Nat → List Nat → List (List Nat)
  | _, [] => []
  | 0, _ => []
  | fuel + 1, bytes => bytes.take 64 :: md5BlocksGo fuel (bytes.drop 64)

/-- Split a byte list into 64-byte blocks. -/
def md5Blocks (bytes : List Nat) : List (List Nat) :=
  md5BlocksGo bytes.length bytes

/-- The 16-byte MD5 digest of a byte string, little-endian per word. -/
def md5Bytes (msg : List Nat) : List Nat :=
  let st := (md5Blocks (md5Pad msg)).foldl
    (fun st blk => md5ProcessBlock st (bytesToWordsLE blk))
    (0x67452301, 0xefcdab89, 0x98badcfe, 0x10325476)
  toBytesLE 4 st.1 ++ toBytesLE 4 st.2.1 ++ toBytesLE 4 st.2.2.1 ++
    toBytesLE 4 st.2.2.2

/-- Lowercase hexadecimal digit character of `n % 16`. -/
def hexDigitChar (n : Nat) : Char :=
  if n % 16 < 10 then Char.ofNat (48 + n % 16) else Char.ofNat (87 + n % 16)

/-- Lowercase hexadecimal rendering of a byte list
(`hashlib.md5(...).hexdigest()` output format). -/
def bytesToHex (bs : List Nat) : String :=
  String.mk (bs.foldr (fun b acc => hexDigitChar (b / 16) :: hexDigitChar b :: acc) [])

/-- `hashlib.md5(raw).hexdigest()`. -/
def md5Hex (msg : List Nat) : String := bytesToHex (md5Bytes msg)

/-- UTF-16 little-endian encoding of one character (no byte-order mark);
code points beyond the basic multilingual plane become surrogate pairs,
exactly as Python `str.encode("utf-16le")` does. -/
def utf16leChar (c : Char) : List Nat :=
  let n := c.toNat
  if n < 65536 then [n % 256, n / 256 % 256]
  else
    [(55296 + (n - 65536) / 1024) % 256, (55296 + (n - 65536) / 1024) / 256 % 256,
     (56320 + (n - 65536) % 1024) % 256, (56320 + (n - 65536) % 1024) / 256 % 256]

/-- `s.encode("utf-16le")`: concatenation of the per-character encodings,
with no byte-order mark. -/
def utf16le (s : String) : List Nat :=
  s.data.foldr (fun c acc => utf16leChar c ++ acc) []

/-- The challenge-response computation inside `FritzClient.login`
(`client.py` lines 101-105):
`response = f"{challenge}-{md5(utf16le(challenge + "-" + clean_password)).hexdigest()}"`. -/
def computeResponse (challenge password : String) : String :=
  let cleanPassword := sanitizePassword password
  let raw := utf16le (challenge ++ "-" ++ cleanPassword)
  let md5hex := md5Hex raw
  challenge ++ "-" ++ md5hex

/-! ### Login XML handling and `FritzClient.login` (`client.py`). -/

/-- `_is_zero_sid` from `client.py`:
`bool(sid) and set(sid) == {"0"}` — true exactly for a non-empty string
consisting solely of `'0'` characters. -/
def isZeroSid (sid : String) : Bool :=
  !sid.isEmpty && sid.data.all (fun c => c == '0')

/-- A login XML response body as seen by `_parse_login_xml`: either it
fails `ET.fromstring` (malformed), or it is a document whose `SID`,
`Challenge` and `BlockTime` elements each may be absent. -/
inductive XmlResponse where
  | malformed : XmlResponse
  | doc (sid challenge blocktime : Option String) : XmlResponse
  deriving DecidableEq, Repr

/-- The dictionary produced by `_parse_login_xml`. -/
structure LoginInfo where
  sid : String
  challenge : String
  blocktime : Int
  deriving DecidableEq, Repr

/-- `int(blocktime_text)` with the `ValueError → 0` fallback of
`_parse_login_xml`. -/
def parseBlocktime (s : String) : Int := (s.toInt?).getD 0

/-- `_parse_login_xml` from `client.py`: malformed XML yields the record
`{"sid": "", "challenge": "", "blocktime": 0}`; otherwise absent fields
default to `""` / `"0"`. -/
def parseLoginXml : XmlResponse → LoginInfo
  | .malformed => { sid := "", challenge := "", blocktime := 0 }
  | .doc sid challenge blocktime =>
    { sid := sid.getD "",
      challenge := challenge.getD "",
      blocktime := parseBlocktime (blocktime.getD "0") }

/-- `FritzClient.login` (`client.py` lines 85-117) as a function of the
two login XML response bodies; the HTTP transport and the `BlockTime`
sleep are external effects outside this embedding.  Returns the login
outcome paired with whether the challenge-response round-trip (the
second request) was performed. -/
def loginModel (first second : XmlResponse) : Except String String × Bool :=
  let info := parseLoginXml first
  if !(isZeroSid info.sid) then (Except.ok info.sid, false)
  else if info.challenge = "" then
    (Except.error "Missing login challenge from Fritz!Box", false)
  else
    let info2 := parseLoginXml second
    if isZeroSid info2.sid then (Except.error "Login failed (SID is zero)", true)
    else (Except.ok info2.sid, true)

/-! ### Log payload parsing (`_parse_timestamp`, `_entries_from_payload`). -/

/-- Split a character list on a separator character, keeping empty
groups (the behavior of Python `str.split(sep)` with an explicit
separator). -/
def splitOnChar (sep : Char) : List Char → List (List Char)
  | [] => [[]]
  | c :: rest =>
    match splitOnChar sep rest with
    | [] => [[]]
    | grp :: grps =>
      if c = sep then [] :: grp :: grps else (c :: grp) :: grps

/-- A decimal numeric field of a `strptime` format directive: between
`minLen` and `maxLen` digit characters whose value lies in `[lo, hi]`. -/
def parseBounded (cs : List Char) (minLen maxLen lo hi : Nat) : Option Nat :=
  if cs.length < minLen ∨ maxLen < cs.length then none
  else match digitsToNat cs with
    | some v => if lo ≤ v ∧ v ≤ hi then some v else none
    | none => none

/-- `%y` to a full year: Python maps two-digit years `00-68` to
`2000-2068` and `69-99` to `1969-1999`. -/
def expandYear (y2 : Nat) : Nat := if y2 ≤ 68 then 2000 + y2 else 1900 + y2

/-- ASCII whitespace as matched by the `\s` class that `strptime`
compiles a literal format-string space into. -/
def isSpaceChar (c : Char) : Bool :=
  c = ' ' || c = '\t' || c = '\n' || c = '\r' || c = '\x0b' || c = '\x0c'

/-- Split `datePart \s+ timePart` the way the compiled `strptime` regex
does: the match is anchored at the start (no leading whitespace), the
two parts are separated by one or more whitespace characters, and the
time part may contain no further whitespace (any remainder would be
unconverted data, a `ValueError`). -/
def splitDateTime (cs : List Char) : Option (List Char × List Char) :=
  let t1 := cs.takeWhile (fun c => !(isSpaceChar c))
  let rest := cs.dropWhile (fun c => !(isSpaceChar c))
  let t2 := rest.dropWhile isSpaceChar
  if t1.isEmpty ∨ rest.isEmpty ∨ t2.isEmpty ∨ t2.any isSpaceChar then none
  else some (t1, t2)

/-- Gregorian leap-year rule, as used by Python `datetime`. -/
def isLeapYear (y : Nat) : Bool :=
  y % 4 = 0 && (y % 100 ≠ 0 || y % 400 = 0)

/-- Number of days in a month, as validated by the Python `datetime`
constructor that `strptime` ends in. -/
def daysInMonth (y m : Nat) : Nat :=
  if m = 2 then (if isLeapYear y then 29 else 28)
  else if m = 4 ∨ m = 6 ∨ m = 9 ∨ m = 11 then 30
  else 31

/-- `datetime.strptime(s, "%d.%m.%y %H:%M:%S")` (as `Option`): day and
month of 1-2 digits, exactly two year digits, colon-separated
hour/minute/second fields, one-or-more-whitespace separator, nothing
left over, and the day validated against the calendar month (Python's
`datetime` constructor raises "day is out of range for month"). -/
def parseFmtSec (s : String) : Option DateTime :=
  match splitDateTime s.data with
  | some (datePart, timePart) =>
    match splitOnChar '.' datePart, splitOnChar ':' timePart with
    | [ds, ms, ys], [hs, mins, secs] => do
      let d ← parseBounded ds 1 2 1 31
      let mo ← parseBounded ms 1 2 1 12
      let y2 ← parseBounded ys 2 2 0 99
      let h ← parseBounded hs 1 2 0 23
      let mi ← parseBounded mins 1 2 0 59
      let se ← parseBounded secs 1 2 0 59
      if d ≤ daysInMonth (expandYear y2) mo then
        some ⟨expandYear y2, mo, d, h, mi, se⟩
      else none
    | _, _ => none
  | none => none

/-- `datetime.strptime(s, "%d.%m.%y %H:%M")` (as `Option`): like
`parseFmtSec` but with a two-component time and second fixed to `0`. -/
def parseFmtMin (s : String) : Option DateTime :=
  match splitDateTime s.data with
  | some (datePart, timePart) =>
    match splitOnChar '.' datePart, splitOnChar ':' timePart with
    | [ds, ms, ys], [hs, mins] => do
      let d ← parseBounded ds 1 2 1 31
      let mo ← parseBounded ms 1 2 1 12
      let y2 ← parseBounded ys 2 2 0 99
      let h ← parseBounded hs 1 2 0 23
      let mi ← parseBounded mins 1 2 0 59
      if d ≤ daysInMonth (expandYear y2) mo then
        some ⟨expandYear y2, mo, d, h, mi, 0⟩
      else none
    | _, _ => none
  | none => none

/-- `_parse_timestamp` from `client.py` (also duplicated in `cli.py`):
try `"%d.%m.%y %H:%M:%S"` first, then `"%d.%m.%y %H:%M"`, and raise
`ValueError` (modelled as `Except.error`) when neither format parses. -/
def parseLogTimestamp (dateStr timeStr : String) : Except String DateTime :=
  match parseFmtSec (dateStr ++ " " ++ timeStr) with
  | some t => Except.ok t
  | none =>
    match parseFmtMin (dateStr ++ " " ++ timeStr) with
    | some t => Except.ok t
    | none =>
      Except.error ("Unrecognized date/time: " ++ dateStr ++ " " ++ timeStr)

/-- One raw item of `payload["data"]["log"]`: each of the five keys may
be absent (`item.get(key, "")` then defaults it to `""`). -/
structure RawItem where
  date : Option String
  time : Option String
  group : Option String
  id : Option String
  msg : Option String
  deriving DecidableEq, Repr

def RawItem.dateStr (i : RawItem) : String := i.date.getD ""
def RawItem.timeStr (i : RawItem) : String := i.time.getD ""
def RawItem.groupStr (i : RawItem) : String := i.group.getD ""
def RawItem.idStr (i : RawItem) : String := i.id.getD ""
def RawItem.msgStr (i : RawItem) : String := i.msg.getD ""

/-- `list(_entries_from_payload(items))` as evaluated inside
`FritzClient.fetch_log`: items with an empty date or time string are
skipped; a timestamp that fails both formats raises, aborting the whole
fetch. -/
def entriesFromPayload : List RawItem → Except String (List LogEntry)
  | [] => Except.ok []
  | item :: rest =>
    if item.dateStr = "" ∨ item.timeStr = "" then entriesFromPayload rest
    else
      match parseLogTimestamp item.dateStr item.timeStr with
      | Except.error m => Except.error m
      | Except.ok ts =>
        match entriesFromPayload rest with
        | Except.error m => Except.error m
        | Except.ok es =>
          Except.ok ({ timestamp := ts, group := item.groupStr,
                       entry_id := item.idStr, message := item.msgStr } :: es)

/-! ### `FritzClient.fetch_log_with_retry` (`client.py` lines 141-147). -/

/-- Observable actions of the retry wrapper. -/
inductive RetryAction where
  | fetchAttempt : RetryAction
  | discardSid : RetryAction
  | loginCall : RetryAction
  deriving DecidableEq, Repr

/-- Outcomes of the wrapped effectful calls during one
`fetch_log_with_retry` invocation: the first `fetch_log` attempt, the
explicit `login`, and the second `fetch_log` attempt. -/
structure RetryEnv (α : Type) where
  fetch1 : Except String α
  loginRes : Except String String
  fetch2 : Except String α

/-- `FritzClient.fetch_log_with_retry`: `try: return self.fetch_log()`,
and on any exception `self.sid = None; self.login(); return
self.fetch_log()`.  Returns the outcome together with the trace of
actions performed, in order. -/
def fetchLogWithRetry {α : Type} (env : RetryEnv α) :
    Except String α × List RetryAction :=
  match env.fetch1 with
  | Except.ok r => (Except.ok r, [RetryAction.fetchAttempt])
  | Except.error _ =>
    match env.loginRes with
    | Except.error m =>
      (Except.error m,
       [RetryAction.fetchAttempt, RetryAction.discardSid, RetryAction.loginCall])
    | Except.ok _ =>
      (env.fetch2,
       [RetryAction.fetchAttempt, RetryAction.discardSid, RetryAction.loginCall,
        RetryAction.fetchAttempt])

/-! ### Agent state loading (`_load_state`, `_run_agent` init, `cli.py`). -/

/-- The persisted record manipulated by `_load_state` / `_save_state`. -/
structure StateRecord where
  last_timestamp : String
  last_signatures : List String
  deriving DecidableEq, Repr

/-- The state file as `_load_state` can encounter it: absent, present
but not valid JSON, or present with a decoded record. -/
inductive StateFile where
  | absent : StateFile
  | invalidJson : StateFile
  | validJson (record : StateRecord) : StateFile
  deriving DecidableEq, Repr

/-- `_load_state` from `cli.py` (lines 122-128): a missing file and a
`json.JSONDecodeError` both yield
`{"last_timestamp": "", "last_signatures": []}`. -/
def loadState : StateFile → StateRecord
  | .absent => { last_timestamp := "", last_signatures := [] }
  | .invalidJson => { last_timestamp := "", last_signatures := [] }
  | .validJson record => record

/-- `datetime.fromtimestamp(0)`, the epoch sentinel used by
`_run_agent` (local clock offset abstracted away). -/
def epochDateTime : DateTime :=
  { year := 1970, month := 1, day := 1, hour := 0, minute := 0, second := 0 }

/-- The poll-state initialization at the top of `_run_agent` (`cli.py`
lines 188-195): load the state record, keep the epoch sentinel unless a
non-empty `last_timestamp` is stored (which is then `strptime`-parsed,
raising on failure), and turn the signature list into a set. -/
def agentInitState (file : StateFile) : Except String PollState :=
  let state := loadState file
  if state.last_timestamp = "" then
    Except.ok { last_timestamp := epochDateTime,
                last_signatures := state.last_signatures.toFinset }
  else
    match parseIsoTimestamp state.last_timestamp with
    | some t =>
      Except.ok { last_timestamp := t,
                  last_signatures := state.last_signatures.toFinset }
    | none => Except.error "time data does not match format"

/-! ### Helper lemmas about the poller state machine. -/

theorem pollStep_gt {s : PollState} {e : LogEntry}
    (h : DateTime.Lt s.last_timestamp e.timestamp) :
    pollStep s e =
      ({ last_timestamp := e.timestamp,
         last_signatures := {entrySignature e} }, true) := by
  simp only [pollStep, if_pos h]

theorem pollStep_eq {s : PollState} {e : LogEntry}
    (h : e.timestamp = s.last_timestamp) :
    pollStep s e =
      (if entrySignature e ∈ s.last_signatures then (s, false)
       else ({ s with
                last_signatures := insert (entrySignature e) s.last_signatures },
             true)) := by
  have h1 : ¬ DateTime.Lt s.last_timestamp e.timestamp := by
    rw [h]; exact DateTime.lt_irrefl _
  simp only [pollStep, if_neg h1, if_pos h]

theorem pollStep_lt {s : PollState} {e : LogEntry}
    (h : DateTime.Lt e.timestamp s.last_timestamp) :
    pollStep s e = (s, false) := by
  have h1 : ¬ DateTime.Lt s.last_timestamp e.timestamp := DateTime.lt_asymm h
  have h2 : ¬ e.timestamp = s.last_timestamp := fun he =>
    DateTime.lt_irrefl s.last_timestamp (he ▸ h)
  simp only [pollStep, if_neg h1, if_neg h2]

theorem pollLoop_sublist : ∀ (l : List LogEntry) (s : PollState),
    (pollLoop s l).2.Sublist l := by
  intro l
  induction l with
  | nil => intro s; simp [pollLoop]
  | cons e rest ih =>
    intro s
    simp only [pollLoop]
    by_cases hb : (pollStep s e).2
    · simpa [hb] using List.Sublist.cons₂ e (ih (pollStep s e).1)
    · simpa [hb] using List.Sublist.cons e (ih (pollStep s e).1)

theorem pollLoop_all_lt : ∀ (l : List LogEntry) (s : PollState),
    (∀ e ∈ l, DateTime.Lt e.timestamp s.last_timestamp) →
    pollLoop s l = (s, []) := by
  intro l
  induction l with
  | nil => intro s _; rfl
  | cons e rest ih =>
    intro s h
    have he := h e (List.mem_cons_self e rest)
    have hrest : ∀ x ∈ rest, DateTime.Lt x.timestamp s.last_timestamp :=
      fun x hx => h x (List.mem_cons_of_mem e hx)
    simp [pollLoop, pollStep_lt he, ih s hrest]

/-- C1: the poller processes each fetched batch sorted ascending by
timestamp; per entry it (a) on a strictly newer timestamp replaces
`last_timestamp`, resets `last_signatures` to the singleton of this
entry's signature and emits the entry, (b) on an equal timestamp emits
iff the signature is new and then records it, (c) never emits an older
entry; the emitted entries are delivered together in ascending-timestamp
order. -/
theorem poller_dedup_processing :
    (∀ (s : PollState) (e : LogEntry),
      DateTime.Lt s.last_timestamp e.timestamp →
      pollStep s e =
        ({ last_timestamp := e.timestamp,
           last_signatures := {entrySignature e} }, true)) ∧
    (∀ (s : PollState) (e : LogEntry),
      e.timestamp = s.last_timestamp →
      pollStep s e =
        (if entrySignature e ∈ s.last_signatures then (s, false)
         else ({ s with
                  last_signatures := insert (entrySignature e) s.last_signatures },
               true))) ∧
    (∀ (s : PollState) (e : LogEntry),
      DateTime.Lt e.timestamp s.last_timestamp → pollStep s e = (s, false)) ∧
    (∀ (s : PollState) (entries : List LogEntry),
      processBatch s entries = pollLoop s (sortEntries entries)) ∧
    (∀ (s : PollState) (entries : List LogEntry),
      (processBatch s entries).2.Pairwise entryLe) := by
  refine ⟨fun s e h => pollStep_gt h, fun s e h => pollStep_eq h,
    fun s e h => pollStep_lt h, fun s entries => rfl, fun s entries => ?_⟩
  have hsorted : (sortEntries entries).Pairwise entryLe :=
    List.sorted_insertionSort entryLe entries
  exact List.Pairwise.sublist (pollLoop_sublist (sortEntries entries) s) hsorted

theorem poller_dedup_processing_witness :
    pollStep
      { last_timestamp := ⟨1970, 1, 1, 0, 0, 0⟩, last_signatures := ∅ }
      { timestamp := ⟨2024, 1, 1, 10, 0, 0⟩, group := "WLAN",
        entry_id := "1", message := "x" } =
    ({ last_timestamp := ⟨2024, 1, 1, 10, 0, 0⟩,
       last_signatures :=
         {entrySignature { timestamp := ⟨2024, 1, 1, 10, 0, 0⟩, group := "WLAN",
                           entry_id := "1", message := "x" }} }, true) :=
  poller_dedup_processing.1 _ _ (by decide)

/-- C6: a batch whose timestamps are all strictly older than the
poll-state's `last_timestamp` produces zero emissions and leaves the
state (both `last_timestamp` and `last_signatures`) unchanged. -/
theorem poller_replay_idempotent :
    ∀ (s : PollState) (entries : List LogEntry),
      (∀ e ∈ entries, DateTime.Lt e.timestamp s.last_timestamp) →
      processBatch s entries = (s, []) := by
  intro s entries h
  unfold processBatch
  refine pollLoop_all_lt (sortEntries entries) s (fun e he => ?_)
  exact h e ((List.perm_insertionSort entryLe entries).mem_iff.1 he)

theorem poller_replay_idempotent_witness :
    processBatch
      { last_timestamp := ⟨2024, 6, 1, 12, 0, 0⟩, last_signatures := {"a|b|c"} }
      [{ timestamp := ⟨2024, 1, 1, 10, 0, 0⟩, group := "WLAN",
         entry_id := "1", message := "x" },
       { timestamp := ⟨2023, 12, 31, 23, 59, 59⟩, group := "DSL",
         entry_id := "2", message := "y" }] =
    ({ last_timestamp := ⟨2024, 6, 1, 12, 0, 0⟩, last_signatures := {"a|b|c"} },
     []) :=
  poller_replay_idempotent _ _ (by decide)

/-! ### Helper lemmas about the hexadecimal digest format. -/

theorem toBytesLE_length : ∀ (k x : Nat), (toBytesLE k x).length = k := by
  intro k
  induction k with
  | zero => intro x; rfl
  | succ n ih => intro x; simp [toBytesLE, ih]

theorem md5Bytes_length (msg : List Nat) : (md5Bytes msg).length = 16 := by
  simp [md5Bytes, toBytesLE_length]

theorem hexDigitChar_mem (n : Nat) :
    hexDigitChar n ∈ "0123456789abcdef".data := by
  have h : n % 16 < 16 := Nat.mod_lt _ (by norm_num)
  have key : ∀ m, m < 16 →
      (if m < 10 then Char.ofNat (48 + m) else Char.ofNat (87 + m)) ∈
        "0123456789abcdef".data := by decide
  unfold hexDigitChar
  exact key (n % 16) h

theorem bytesToHex_data_length (bs : List Nat) :
    (bytesToHex bs).data.length = 2 * bs.length := by
  unfold bytesToHex
  induction bs with
  | nil => rfl
  | cons b rest ih => simp only [List.foldr_cons, List.length_cons] at *; omega

theorem bytesToHex_mem {bs : List Nat} {c : Char}
    (h : c ∈ (bytesToHex bs).data) : c ∈ "0123456789abcdef".data := by
  unfold bytesToHex at h
  induction bs with
  | nil => simp at h
  | cons b rest ih =>
    simp only [List.foldr_cons, List.mem_cons] at h
    rcases h with h | h | h
    · exact h ▸ hexDigitChar_mem (b / 16)
    · exact h ▸ hexDigitChar_mem b
    · exact ih h

/-- C2: the response computed by `login` is
`challenge ++ "-" ++ md5Hex(utf16le(challenge ++ "-" ++ sanitized password))`
(UTF-16 little-endian, no byte-order mark), where the digest part is a
32-character lowercase hexadecimal string, and the computation is a pure
deterministic function of its two string inputs. -/
theorem login_response_formula :
    ∀ (challenge password : String),
      computeResponse challenge password =
        challenge ++ "-" ++
          md5Hex (utf16le (challenge ++ "-" ++ sanitizePassword password)) ∧
      (md5Hex (utf16le (challenge ++ "-" ++ sanitizePassword password))).length
        = 32 ∧
      (∀ c ∈ (md5Hex (utf16le (challenge ++ "-" ++
          sanitizePassword password))).data, c ∈ "0123456789abcdef".data) ∧
      computeResponse challenge password = computeResponse challenge password := by
  intro challenge password
  refine ⟨rfl, ?_, fun c hc => bytesToHex_mem hc, rfl⟩
  show (bytesToHex (md5Bytes _)).data.length = 32
  rw [bytesToHex_data_length, md5Bytes_length]

set_option maxRecDepth 10000 in
theorem login_response_formula_witness :
    computeResponse "c" "p" =
      "c" ++ "-" ++ md5Hex (utf16le ("c" ++ "-" ++ sanitizePassword "p")) ∧
    (md5Hex (utf16le ("c" ++ "-" ++ sanitizePassword "p"))).length = 32 ∧
    'd' ∈ "0123456789abcdef".data :=
  ⟨(login_response_formula "c" "p").1,
   (login_response_formula "c" "p").2.1,
   (login_response_formula "c" "p").2.2.1 'd' (by decide)⟩

/-- C3: `fetch_log_with_retry` returns a first successful fetch without
re-login; on any first-fetch failure it discards the cached SID,
performs exactly one login, and (once that login completes) attempts
`fetch_log` exactly once more, whose outcome — success or failure —
propagates unchanged; in every case at most two fetch attempts occur. -/
theorem fetch_retry_behavior :
    ∀ (α : Type) (env : RetryEnv α),
      (∀ r, env.fetch1 = Except.ok r →
        fetchLogWithRetry env = (Except.ok r, [RetryAction.fetchAttempt])) ∧
      (∀ m, env.fetch1 = Except.error m →
        RetryAction.discardSid ∈ (fetchLogWithRetry env).2 ∧
        (fetchLogWithRetry env).2.count RetryAction.loginCall = 1 ∧
        (∀ sid, env.loginRes = Except.ok sid →
          (fetchLogWithRetry env).2.count RetryAction.fetchAttempt = 2 ∧
          (fetchLogWithRetry env).1 = env.fetch2)) ∧
      (fetchLogWithRetry env).2.count RetryAction.fetchAttempt ≤ 2 := by
  intro α env
  refine ⟨fun r h => ?_, fun m h => ?_, ?_⟩
  · simp [fetchLogWithRetry, h]
  · cases hl : env.loginRes with
    | error m' =>
      refine ⟨?_, ?_, fun sid hs => Except.noConfusion hs⟩
      · simp [fetchLogWithRetry, h, hl]
      · simp [fetchLogWithRetry, h, hl, List.count_cons]
    | ok sid' =>
      refine ⟨?_, ?_, fun sid hs => ⟨?_, ?_⟩⟩
      · simp [fetchLogWithRetry, h, hl]
      · simp [fetchLogWithRetry, h, hl, List.count_cons]
      · simp [fetchLogWithRetry, h, hl, List.count_cons]
      · simp [fetchLogWithRetry, h, hl]
  · cases hf : env.fetch1 with
    | ok r => simp [fetchLogWithRetry, hf, List.count_cons]
    | error m =>
      cases hl : env.loginRes with
      | error m' => simp [fetchLogWithRetry, hf, hl, List.count_cons]
      | ok sid' => simp [fetchLogWithRetry, hf, hl, List.count_cons]

theorem fetch_retry_behavior_witness :
    RetryAction.discardSid ∈
      (fetchLogWithRetry { fetch1 := Except.error "boom",
                           loginRes := Except.ok "sid1",
                           fetch2 := (Except.error "boom again" : Except String Nat) }).2 ∧
    (fetchLogWithRetry { fetch1 := Except.error "boom",
                         loginRes := Except.ok "sid1",
                         fetch2 := (Except.error "boom again" : Except String Nat) }).2.count
      RetryAction.fetchAttempt = 2 :=
  ⟨((fetch_retry_behavior Nat _).2.1 "boom" rfl).1,
   (((fetch_retry_behavior Nat _).2.1 "boom" rfl).2.2 "sid1" rfl).1⟩

/-- C4: `_sanitize_password` maps every character with code point above
`U+00FF` to `'.'`, keeps every character with code point at most
`U+00FF`, and preserves the length and position of every character. -/
theorem sanitize_password_pointwise :
    ∀ (p : String),
      (sanitizePassword p).length = p.length ∧
      ∀ (i : Nat) (h1 : i < p.data.length)
        (h2 : i < (sanitizePassword p).data.length),
        (sanitizePassword p).data.get ⟨i, h2⟩ =
          (if (p.data.get ⟨i, h1⟩).toNat ≤ 255 then p.data.get ⟨i, h1⟩
           else '.') := by
  intro p
  constructor
  · show (p.data.map _).length = p.data.length
    rw [List.length_map]
  · intro i h1 h2
    show (p.data.map _).get ⟨i, h2⟩ = _
    simp only [List.get_eq_getElem, List.getElem_map]

theorem sanitize_password_pointwise_witness :
    (sanitizePassword "aĀ").length = ("aĀ" : String).length ∧
    (sanitizePassword "aĀ").data.get ⟨1, by decide⟩ =
      (if (("aĀ" : String).data.get ⟨1, by decide⟩).toNat ≤ 255
       then ("aĀ" : String).data.get ⟨1, by decide⟩ else '.') :=
  ⟨(sanitize_password_pointwise "aĀ").1,
   (sanitize_password_pointwise "aĀ").2 1 (by decide) (by decide)⟩

/-- `strptime` fidelity check: a syntactically well-formed date whose
day is out of range for its calendar month (here February 30) fails
both formats, so `_parse_timestamp` raises and the fetch fails. -/
theorem parse_timestamp_rejects_bad_calendar_day :
    parseLogTimestamp "30.02.24" "10:00:00" =
      Except.error "Unrecognized date/time: 30.02.24 10:00:00" ∧
    parseFmtSec "29.02.24 10:00:00" = some ⟨2024, 2, 29, 10, 0, 0⟩ ∧
    parseFmtSec "29.02.23 10:00:00" = none := by
  refine ⟨by rfl, by decide, by decide⟩

/-- `strptime` fidelity check: the literal space of the format matches
a run of one or more whitespace characters, so a doubled separator
still parses. -/
theorem parse_timestamp_accepts_whitespace_run :
    parseFmtSec "01.01.24  10:00:00" = some ⟨2024, 1, 1, 10, 0, 0⟩ ∧
    parseFmtSec "01.01.24 10:00:00 " = none := by
  refine ⟨?_, ?_⟩ <;> decide

/-- C5: items with a missing (empty) date or time string are silently
skipped with no entry and no error; for items with both present the
combined string is parsed with the seconds format first and the
no-seconds format only if that fails; if neither format parses, the
whole fetch fails with an error instead of skipping the item. -/
theorem payload_parsing_policy :
    (∀ (pre : List RawItem) (item : RawItem) (rest : List RawItem),
      item.dateStr = "" ∨ item.timeStr = "" →
      entriesFromPayload (pre ++ item :: rest) = entriesFromPayload (pre ++ rest)) ∧
    (∀ (d t : String) (ts : DateTime), parseFmtSec (d ++ " " ++ t) = some ts →
      parseLogTimestamp d t = Except.ok ts) ∧
    (∀ (d t : String) (ts : DateTime), parseFmtSec (d ++ " " ++ t) = none →
      parseFmtMin (d ++ " " ++ t) = some ts →
      parseLogTimestamp d t = Except.ok ts) ∧
    (∀ (d t : String), parseFmtSec (d ++ " " ++ t) = none →
      parseFmtMin (d ++ " " ++ t) = none →
      parseLogTimestamp d t =
        Except.error ("Unrecognized date/time: " ++ d ++ " " ++ t)) ∧
    (∀ (items : List RawItem) (item : RawItem), item ∈ items →
      item.dateStr ≠ "" → item.timeStr ≠ "" →
      parseFmtSec (item.dateStr ++ " " ++ item.timeStr) = none →
      parseFmtMin (item.dateStr ++ " " ++ item.timeStr) = none →
      ∃ m, entriesFromPayload items = Except.error m) := by
  refine ⟨?_, ?_, ?_, ?_, ?_⟩
  · intro pre item rest h
    induction pre with
    | nil =>
      simp only [List.nil_append, entriesFromPayload]
      rw [if_pos h]
    | cons p pre ih =>
      simp only [List.cons_append, entriesFromPayload, List.append_eq, ih]
  · intro d t ts h
    unfold parseLogTimestamp
    rw [h]
  · intro d t ts h1 h2
    unfold parseLogTimestamp
    rw [h1, h2]
  · intro d t h1 h2
    unfold parseLogTimestamp
    rw [h1, h2]
  · intro items
    induction items with
    | nil => intro item h; exact absurd h (List.not_mem_nil item)
    | cons hd tl ih =>
      intro item hmem hd1 ht1 hs hm
      rcases List.mem_cons.1 hmem with heq | hmem'
      · subst heq
        refine ⟨"Unrecognized date/time: " ++ item.dateStr ++ " " ++ item.timeStr, ?_⟩
        simp only [entriesFromPayload]
        rw [if_neg (by push_neg; exact ⟨hd1, ht1⟩)]
        unfold parseLogTimestamp
        rw [hs, hm]
      · by_cases hskip : hd.dateStr = "" ∨ hd.timeStr = ""
        · obtain ⟨m, hm'⟩ := ih item hmem' hd1 ht1 hs hm
          refine ⟨m, ?_⟩
          simp only [entriesFromPayload]
          rw [if_pos hskip]
          exact hm'
        · cases hp : parseLogTimestamp hd.dateStr hd.timeStr with
          | error m =>
            refine ⟨m, ?_⟩
            simp only [entriesFromPayload]
            rw [if_neg hskip, hp]
          | ok ts =>
            obtain ⟨m, hm'⟩ := ih item hmem' hd1 ht1 hs hm
            refine ⟨m, ?_⟩
            simp only [entriesFromPayload]
            rw [if_neg hskip, hp, hm']

theorem payload_parsing_policy_witness :
    ∃ m, entriesFromPayload
      [{ date := some "01.01.24", time := some "99:99", group := some "WLAN",
         id := some "1", msg := some "x" }] = Except.error m :=
  payload_parsing_policy.2.2.2.2 _
    { date := some "01.01.24", time := some "99:99", group := some "WLAN",
      id := some "1", msg := some "x" }
    (List.mem_singleton.mpr rfl) (by decide) (by decide) (by decide) (by decide)

/-- C7 counterexample: with a malformed first login XML response,
`login` does NOT fail with the missing-challenge error — the parse
yields an empty SID, which `_is_zero_sid` does not classify as the
all-zero sentinel, so `login` returns the empty string as a session
identifier without any challenge round-trip. -/
theorem login_malformed_xml_cex :
    loginModel XmlResponse.malformed (XmlResponse.doc none none none) =
      (Except.ok "", false) ∧
    (loginModel XmlResponse.malformed (XmlResponse.doc none none none)).1 ≠
      Except.error "Missing login challenge from Fritz!Box" := by
  refine ⟨rfl, ?_⟩
  intro h
  exact Except.noConfusion h

/-- C7 amended: when the first login XML response is malformed, `login`
treats it as having an empty challenge and an EMPTY (not zero) SID;
since the empty string fails the all-zero-sentinel test, `login` returns
the empty SID immediately as a success, with no challenge round-trip and
no error. -/
theorem login_malformed_xml_amended :
    ∀ (second : XmlResponse),
      parseLoginXml XmlResponse.malformed =
        { sid := "", challenge := "", blocktime := 0 } ∧
      isZeroSid "" = false ∧
      loginModel XmlResponse.malformed second = (Except.ok "", false) :=
  fun _ => ⟨rfl, rfl, rfl⟩

/-- C9: the empty string is not the all-zero invalid sentinel for
`_is_zero_sid`; a first login response parsing to an empty SID makes
`login` return `""` immediately without a challenge round-trip, and
when the challenge round-trip does happen, a second response parsing to
an empty SID is likewise returned as a successful session identifier. -/
theorem empty_sid_accepted :
    isZeroSid "" = false ∧
    (∀ (first second : XmlResponse), (parseLoginXml first).sid = "" →
      loginModel first second = (Except.ok "", false)) ∧
    (∀ (first second : XmlResponse),
      isZeroSid (parseLoginXml first).sid = true →
      (parseLoginXml first).challenge ≠ "" →
      (parseLoginXml second).sid = "" →
      loginModel first second = (Except.ok "", true)) := by
  have hz : isZeroSid "" = false := rfl
  refine ⟨rfl, fun first second h => ?_, fun first second h1 h2 h3 => ?_⟩
  · simp [loginModel, h, hz]
  · simp [loginModel, h1, h2, h3, hz]

theorem empty_sid_accepted_witness :
    loginModel (XmlResponse.doc (some "") (some "ch") none)
      (XmlResponse.doc none none none) = (Except.ok "", false) ∧
    loginModel (XmlResponse.doc (some "0000000000000000") (some "ch") none)
      (XmlResponse.doc (some "") none none) = (Except.ok "", true) :=
  ⟨empty_sid_accepted.2.1 _ _ rfl,
   empty_sid_accepted.2.2 _ _ rfl (by decide) rfl⟩

/-! ### Helper lemmas for the timestamp round-trip. -/

theorem charToDigit_digitChar (n : Nat) :
    charToDigit (digitChar n) = some (n % 10) := by
  have h : n % 10 < 10 := Nat.mod_lt _ (by norm_num)
  have key : ∀ m, m < 10 → charToDigit (Char.ofNat (48 + m)) = some m := by decide
  unfold digitChar
  exact key (n % 10) h

theorem digitsToNat_two (n : Nat) (h : n ≤ 99) :
    digitsToNat [digitChar (n / 10), digitChar n] = some n := by
  simp only [digitsToNat, charToDigit_digitChar, List.length_cons, List.length_nil,
    pow_zero, pow_one, Option.some.injEq]
  omega

theorem digitsToNat_four (n : Nat) (h : n ≤ 9999) :
    digitsToNat
      [digitChar (n / 1000), digitChar (n / 100), digitChar (n / 10), digitChar n]
      = some n := by
  simp only [digitsToNat, charToDigit_digitChar, List.length_cons, List.length_nil,
    Option.some.injEq]
  norm_num
  omega

theorem parseIso_formatIso (y mo da h mi se : Nat)
    (hy2 : y ≤ 9999)
    (hmo1 : 1 ≤ mo) (hmo2 : mo ≤ 12) (hda1 : 1 ≤ da) (hda2 : da ≤ 31)
    (hh : h ≤ 23) (hmi : mi ≤ 59) (hse : se ≤ 59) :
    parseIsoTimestamp (formatIso ⟨y, mo, da, h, mi, se⟩) =
      some ⟨y, mo, da, h, mi, se⟩ := by
  have hdata : (formatIso ⟨y, mo, da, h, mi, se⟩).data =
    [digitChar (y / 1000), digitChar (y / 100), digitChar (y / 10), digitChar y,
     '-', digitChar (mo / 10), digitChar mo, '-', digitChar (da / 10), digitChar da,
     'T', digitChar (h / 10), digitChar h, ':', digitChar (mi / 10), digitChar mi,
     ':', digitChar (se / 10), digitChar se] := rfl
  unfold parseIsoTimestamp
  rw [hdata]
  simp only []
  simp only [and_self, if_true,
    digitsToNat_four y hy2, digitsToNat_two mo (by omega), digitsToNat_two da (by omega),
    digitsToNat_two h (by omega), digitsToNat_two mi (by omega), digitsToNat_two se (by omega),
    Option.some_bind, Option.bind_some, Option.bind_eq_bind]
  rw [if_pos ⟨hmo1, hmo2, hda1, hda2, hh, hmi, hse⟩]

/-- C8: for every `LogEntry` with a second-precision timestamp in the
representable range (four-digit year, valid calendar fields — the only
timestamps this program constructs), serializing with `to_json` and
reading the `"timestamp"` (parsed as `YYYY-MM-DDTHH:MM:SS`), `"group"`,
`"id"` and `"msg"` fields back recovers the original entry's timestamp,
group, entry id and message. -/
theorem to_json_roundtrip :
    ∀ (e : LogEntry),
      1000 ≤ e.timestamp.year → e.timestamp.year ≤ 9999 →
      1 ≤ e.timestamp.month → e.timestamp.month ≤ 12 →
      1 ≤ e.timestamp.day → e.timestamp.day ≤ 31 →
      e.timestamp.hour ≤ 23 → e.timestamp.minute ≤ 59 →
      e.timestamp.second ≤ 59 →
      readJsonEntry (LogEntry.toJson e) =
        some (e.timestamp, e.group, e.entry_id, e.message) := by
  intro e h1 h2 h3 h4 h5 h6 h7 h8 h9
  obtain ⟨ts, g, eid, msg⟩ := e
  obtain ⟨y, mo, da, h, mi, se⟩ := ts
  simp only at h1 h2 h3 h4 h5 h6 h7 h8 h9
  unfold readJsonEntry LogEntry.toJson
  rw [parseIso_formatIso y mo da h mi se h2 h3 h4 h5 h6 h7 h8 h9]
  rfl

theorem to_json_roundtrip_witness :
    readJsonEntry
      (LogEntry.toJson
        { timestamp := ⟨2024, 1, 1, 10, 0, 0⟩, group := "WLAN",
          entry_id := "1", message := "x" }) =
      some (⟨2024, 1, 1, 10, 0, 0⟩, "WLAN", "1", "x") :=
  to_json_roundtrip
    { timestamp := ⟨2024, 1, 1, 10, 0, 0⟩, group := "WLAN",
      entry_id := "1", message := "x" }
    (by norm_num) (by norm_num) (by norm_num) (by norm_num) (by norm_num)
    (by norm_num) (by norm_num) (by norm_num) (by norm_num)

/-- C10: a state file that exists but holds invalid JSON does not abort
the agent: `_load_state` returns the default record (empty
`last_timestamp`, empty signature list), so the poller initializes with
the epoch sentinel and an empty signature set, exactly as when no state
file exists. -/
theorem invalid_state_file_defaults :
    loadState StateFile.invalidJson =
      { last_timestamp := "", last_signatures := [] } ∧
    agentInitState StateFile.invalidJson =
      Except.ok { last_timestamp := epochDateTime, last_signatures := ∅ } ∧
    agentInitState StateFile.invalidJson = agentInitState StateFile.absent := by
  refine ⟨rfl, ?_, rfl⟩
  simp [agentInitState, loadState]

end FritzLog
